import Mathlib

/-!
Shallow embedding of the resource-lifecycle handler of the cdk-ec2-key-pair
repository (src/lambda/index.ts, current variant) together with the parts of
the CDK construct the claims reach. Remote services are modelled by an
environment `Env` that answers every read, and every remote call the handler
issues is recorded in an explicit trace (`St.calls`); values attached to the
lifecycle response are recorded in `St.responses` in write order (last write
wins, as assignment into the response object does in the source).
-/

namespace KeyPairSpec

/-- One resource tag, a Key/Value pair (`Tag` of the AWS clients). -/
structure Tag where
  Key : String
  Value : String
deriving DecidableEq, Repr

/-- `Record<string, string>` of the event payload, as an association list in
insertion order. -/
abbrev TagMap := List (String × String)

/-- `ResourceProperties` of src/lambda/index.ts: the stringly-typed property
bag of the lifecycle event. Numbers arrive as numbers, everything else as
strings. -/
structure ResourceProps where
  Name : String
  StorePublicKey : String
  ExposePublicKey : String
  PublicKey : String
  SecretPrefix : String
  Description : String
  KmsPrivate : String
  KmsPublic : String
  KeyType : String
  PublicKeyFormat : String
  RemoveKeySecretsAfterDays : Int
  StackName : String
  Tags : TagMap
deriving DecidableEq, Repr

/-- The `CustomResource` wrapper the handler receives: new properties, the
old properties of an Update event, whether the old event carried a stored
`KeyType` (legacy keys lack it), and the stack coordinates used for the
provenance tags. -/
structure Resource where
  props : ResourceProps
  old : ResourceProps
  oldHasKeyType : Bool
  StackId : String
  LogicalResourceId : String
deriving DecidableEq, Repr

/-- `KeyPairInfo` returned by DescribeKeyPairs. -/
structure KeyPairInfo where
  KeyName : String
  KeyPairId : String
  KeyFingerprint : String
deriving DecidableEq, Repr

/-- The key-pair data threaded through the handler: create returns private
key material, import and describe do not. -/
structure KeyPairData where
  KeyName : String
  KeyPairId : String
  KeyFingerprint : String
  KeyMaterial : Option String
deriving DecidableEq, Repr

/-- A remote call issued against the compute-resource API or the
secret-storage API, with the arguments the source passes. -/
inductive ApiCall where
  | importKeyPair (keyName publicKeyMaterial : String) (tags : List Tag)
  | createKeyPair (keyName keyType : String) (tags : List Tag)
  | describeKeyPairs (keyName : String)
  | createTags (resourceId : String) (tags : List Tag)
  | deleteTags (resourceId : String) (tags : List Tag)
  | deleteKeyPair (keyName : String)
  | createSecret (name description secretString kmsKeyId : String) (tags : List Tag)
  | updateSecret (secretId description kmsKeyId : String)
  | tagResource (secretId : String) (tags : List Tag)
  | untagResource (secretId : String) (tagKeys : List String)
  | getSecretValue (secretId : String)
  | listSecrets (name : String)
  | deleteSecret (secretId : String) (recoveryWindowInDays : Option Int) (forceDelete : Bool)
deriving DecidableEq, Repr

/-- Trace of remote calls plus response values attached so far. -/
structure St where
  calls : List ApiCall
  responses : List (String × String)
deriving DecidableEq, Repr

/-- The empty starting state of one invocation. -/
def St.empty : St := ⟨[], []⟩

/-- Record one remote call. -/
def emit (c : ApiCall) (s : St) : St := { s with calls := s.calls ++ [c] }

/-- `resource.addResponseValue(key, value)`. -/
def addResp (k v : String) (s : St) : St := { s with responses := s.responses ++ [(k, v)] }

/-- Effective value of a response attribute: the last write wins, a key never
written is absent. -/
def respGet (s : St) (k : String) : Option String :=
  s.responses.foldl (fun acc p => if p.1 = k then some p.2 else acc) none

/-- Response attribute read with the empty string for an absent key. -/
def respGetD (s : St) (k : String) : String := (respGet s k).getD ""

/-- Success or failure of an operation, failure carrying the error message. -/
inductive Outcome (α : Type) where
  | ok (a : α)
  | fail (msg : String)
deriving DecidableEq, Repr

/-- The environment: what the remote services answer. Mutating calls always
succeed; the key codec (the sshpk library behind `parsePrivateKey` /
`toPublic().toString(format)`) is a function of the environment that may
fail. -/
structure Env where
  importResult : KeyPairInfo
  createResult : KeyPairInfo
  createdKeyMaterial : String
  describeResult : List KeyPairInfo
  secretExists : String → Bool
  createSecretArn : String → String
  updateSecretArn : String → String
  deleteSecretArn : String → String
  getSecretValue : String → String
  derivePublicKey : String → String → Except String String

/-- Name of the private-key secret: `<prefix><name>/private`. -/
def privPath (r : Resource) : String := r.props.SecretPrefix ++ r.props.Name ++ "/private"

/-- Name of the public-key secret: `<prefix><name>/public`. -/
def pubPath (r : Resource) : String := r.props.SecretPrefix ++ r.props.Name ++ "/public"

/-- `makeTags` of src/lambda/index.ts: the three provenance tags followed by
the user tags of the given map. -/
def makeTags (r : Resource) (eventTags : TagMap) : List Tag :=
  [⟨"aws-cloudformation:stack-id", r.StackId⟩,
   ⟨"aws-cloudformation:stack-name", r.props.StackName⟩,
   ⟨"aws-cloudformation:logical-id", r.LogicalResourceId⟩]
  ++ eventTags.map (fun p => ⟨p.1, p.2⟩)

/-- `missingTags` of src/lambda/index.ts: a tag of the old list is missing
when no tag of the new list shares its key. -/
def missingTags (newTags : List Tag) : Tag → Bool :=
  fun currentTag => (newTags.filter (fun newTag => newTag.Key == currentTag.Key)).length == 0

/-- `getMissingTags` of src/lambda/index.ts: keys of the old tag list absent
from the new tag list. -/
def getMissingTags (oldTags newTags : List Tag) : List String :=
  (oldTags.filter (missingTags newTags)).map (fun t => t.Key)

/-- `Tags.changed` of the custom-resource library: the new user tag map
differs structurally from the old one. -/
def tagsChanged (r : Resource) : Prop := r.props.Tags ≠ r.old.Tags

instance (r : Resource) : Decidable (tagsChanged r) := by
  unfold tagsChanged; infer_instance

/-- The old key type the Update path compares against:
`OldResourceProperties?.KeyType ?? 'rsa'`. -/
def oldKeyTypeEff (r : Resource) : String :=
  if r.oldHasKeyType then r.old.KeyType else "rsa"

/-- `createKeyPair` of src/lambda/index.ts: import when a public key is
given, otherwise create a fresh key pair of the requested type; either way
the full tag set is passed at creation time. -/
def createKeyPair (env : Env) (r : Resource) (s : St) : KeyPairData × St :=
  if r.props.PublicKey.length ≠ 0 then
    let s := emit (.importKeyPair r.props.Name r.props.PublicKey (makeTags r r.props.Tags)) s
    let d := env.importResult
    let s := addResp "KeyPairName" d.KeyName s
    let s := addResp "KeyPairID" d.KeyPairId s
    let s := addResp "KeyFingerprint" d.KeyFingerprint s
    (⟨d.KeyName, d.KeyPairId, d.KeyFingerprint, none⟩, s)
  else
    let s := emit (.createKeyPair r.props.Name r.props.KeyType (makeTags r r.props.Tags)) s
    let d := env.createResult
    let s := addResp "KeyPairName" d.KeyName s
    let s := addResp "KeyPairID" d.KeyPairId s
    let s := addResp "KeyPairFingerprint" d.KeyFingerprint s
    (⟨d.KeyName, d.KeyPairId, d.KeyFingerprint, some env.createdKeyMaterial⟩, s)

/-- `updateKeyPair` of src/lambda/index.ts: describe by name, fail unless
exactly one key pair is returned. -/
def updateKeyPair (env : Env) (r : Resource) (s : St) : Outcome KeyPairData × St :=
  let s := emit (.describeKeyPairs r.props.Name) s
  match env.describeResult with
  | [kp] =>
    let s := addResp "KeyPairName" kp.KeyName s
    let s := addResp "KeyPairID" kp.KeyPairId s
    let s := addResp "KeyPairFingerprint" kp.KeyFingerprint s
    (.ok ⟨kp.KeyName, kp.KeyPairId, kp.KeyFingerprint, none⟩, s)
  | _ => (.fail "Key pair was not found", s)

/-- `updateKeyPairAddTags` of src/lambda/index.ts: fast path when the tag map
is unchanged, otherwise send the whole new tag set in one CreateTags call. -/
def updateKeyPairAddTags (r : Resource) (keyPairId : String) (s : St) : St :=
  if r.props.Tags = r.old.Tags then s
  else emit (.createTags keyPairId (makeTags r r.props.Tags)) s

/-- Record lookup `m[key]`, absent keys reading as the empty string. -/
def recordGet (m : TagMap) (k : String) : String := ((m.lookup k).getD "")

/-- `updateKeyPairRemoveTags` of src/lambda/index.ts: fast path when the tag
map is unchanged or nothing is missing, otherwise one DeleteTags call with
the missing keys (paired with their old values). -/
def updateKeyPairRemoveTags (r : Resource) (keyPairId : String) (s : St) : St :=
  if r.props.Tags = r.old.Tags then s
  else
    let oldTags := makeTags r r.old.Tags
    let newTags := makeTags r r.props.Tags
    let tagsToRemove := getMissingTags oldTags newTags
    if tagsToRemove.length = 0 then s
    else emit (.deleteTags keyPairId (tagsToRemove.map (fun k => ⟨k, recordGet r.old.Tags k⟩))) s

/-- `createPrivateKeySecret` of src/lambda/index.ts: for an imported key the
step only attaches an empty PrivateKeyARN; otherwise it creates the
private-key secret and attaches its ARN. -/
def createPrivateKeySecret (env : Env) (r : Resource) (kp : KeyPairData) (s : St) : St :=
  if r.props.PublicKey.length ≠ 0 then addResp "PrivateKeyARN" "" s
  else
    let name := privPath r
    let s := emit (.createSecret name (r.props.Description ++ " (Private Key)")
      (kp.KeyMaterial.getD "") r.props.KmsPrivate (makeTags r r.props.Tags)) s
    addResp "PrivateKeyARN" (env.createSecretArn name) s

/-- `getPrivateKey` of src/lambda/index.ts: read the private-key secret. -/
def getPrivateKey (env : Env) (r : Resource) (s : St) : String × St :=
  let sid := privPath r
  (env.getSecretValue sid, emit (.getSecretValue sid) s)

/-- `makePublicKey` of src/lambda/index.ts: take the key material from the
create result or from the private-key secret, then run the codec for the
requested format. -/
def makePublicKey (env : Env) (r : Resource) (kp : KeyPairData) (s : St) : Outcome String × St :=
  let mt : String × St :=
    match kp.KeyMaterial with
    | some m => (m, s)
    | none => getPrivateKey env r s
  match env.derivePublicKey mt.1 r.props.PublicKeyFormat with
  | .ok pk => (.ok pk, mt.2)
  | .error e => (.fail e, mt.2)

/-- `createPublicKeySecret` of src/lambda/index.ts: the public key is
computed first (imported value, or derived via the codec) and only then is
the StorePublicKey flag consulted. -/
def createPublicKeySecret (env : Env) (r : Resource) (kp : KeyPairData) (s : St) :
    Outcome Unit × St :=
  let pkRes :=
    if r.props.PublicKey.length ≠ 0 then (Outcome.ok r.props.PublicKey, s)
    else makePublicKey env r kp s
  match pkRes with
  | (.fail e, s) => (.fail e, s)
  | (.ok publicKey, s) =>
    if r.props.StorePublicKey ≠ "true" then (.ok (), s)
    else
      let name := pubPath r
      let s := emit (.createSecret name (r.props.Description ++ " (Public Key)")
        publicKey r.props.KmsPublic (makeTags r r.props.Tags)) s
      (.ok (), addResp "PublicKeyARN" (env.createSecretArn name) s)

/-- `updatePrivateKeySecret` of src/lambda/index.ts: metadata-only update of
the private-key secret. -/
def updatePrivateKeySecret (env : Env) (r : Resource) (s : St) : St :=
  let sid := privPath r
  let s := emit (.updateSecret sid (r.props.Description ++ " (Private key)") r.props.KmsPrivate) s
  addResp "PrivateKeyARN" (env.updateSecretArn sid) s

/-- `updatePublicKeySecret` of src/lambda/index.ts: existence check first,
nothing to do when the public-key secret does not exist. -/
def updatePublicKeySecret (env : Env) (r : Resource) (s : St) : St :=
  let arn := pubPath r
  let s := emit (.listSecrets arn) s
  if env.secretExists arn then
    let s := emit (.updateSecret arn (r.props.Description ++ " (Public Key)") r.props.KmsPublic) s
    addResp "PublicKeyARN" (env.updateSecretArn arn) s
  else s

/-- `updateSecretAddTags` of src/lambda/index.ts: fast path when the tag map
is unchanged, otherwise one TagResource call with the whole new tag set. -/
def updateSecretAddTags (r : Resource) (secretId : String) (s : St) : St :=
  if r.props.Tags = r.old.Tags then s
  else emit (.tagResource secretId (makeTags r r.props.Tags)) s

/-- `updateSecretRemoveTags` of src/lambda/index.ts: fast path when the tag
map is unchanged or nothing is missing, otherwise one UntagResource call
with the missing keys. -/
def updateSecretRemoveTags (r : Resource) (secretId : String) (s : St) : St :=
  if r.props.Tags = r.old.Tags then s
  else
    let oldTags := makeTags r r.old.Tags
    let newTags := makeTags r r.props.Tags
    let tagsToRemove := getMissingTags oldTags newTags
    if tagsToRemove.length = 0 then s
    else emit (.untagResource secretId tagsToRemove) s

/-- `exposePublicKey` of src/lambda/index.ts: when exposure is requested the
public key (imported or derived) is attached, base64-encoded first when the
format is the raw wire format rfc4253; otherwise a placeholder string is
attached. -/
def exposePublicKey (env : Env) (r : Resource) (kp : KeyPairData)
    (base64 : String → String) (s : St) : Outcome Unit × St :=
  if r.props.ExposePublicKey = "true" then
    let pkRes :=
      if r.props.PublicKey.length ≠ 0 then (Outcome.ok r.props.PublicKey, s)
      else makePublicKey env r kp s
    match pkRes with
    | (.fail e, s) => (.fail e, s)
    | (.ok pk, s) =>
      let pk := if r.props.PublicKeyFormat = "rfc4253" then base64 pk else pk
      (.ok (), addResp "PublicKeyValue" pk s)
  else (.ok (), addResp "PublicKeyValue" "Not requested - Set ExposePublicKey to true" s)

/-- UTF-8 bytes of one character, as `Buffer.from(string)` produces them. -/
def utf8Bytes (c : Char) : List Nat :=
  if c.toNat < 128 then [c.toNat]
  else if c.toNat < 2048 then [192 + c.toNat / 64, 128 + c.toNat % 64]
  else if c.toNat < 65536 then
    [224 + c.toNat / 4096, 128 + c.toNat / 64 % 64, 128 + c.toNat % 64]
  else
    [240 + c.toNat / 262144, 128 + c.toNat / 4096 % 64, 128 + c.toNat / 64 % 64,
     128 + c.toNat % 64]

/-- UTF-8 bytes of a string. -/
def strBytes (s : String) : List Nat := s.data.flatMap utf8Bytes

/-- The base64 alphabet. -/
def base64Chars : List Char :=
  "ABCDEFGHIJKLMNOPQRSTUVWXYZabcdefghijklmnopqrstuvwxyz0123456789+/".data

/-- Character of one 6-bit group. -/
def b64c (n : Nat) : Char := base64Chars.getD n 'A'

/-- Standard base64 of a byte list, three bytes to four characters with `=`
padding, as `Buffer.prototype.toString('base64')` produces it. -/
def base64Chunks : List Nat → List Char
  | [] => []
  | [a] => [b64c (a / 4), b64c (a % 4 * 16), '=', '=']
  | [a, b] => [b64c (a / 4), b64c (a % 4 * 16 + b / 16), b64c (b % 16 * 4), '=']
  | a :: b :: c :: rest =>
    b64c (a / 4) :: b64c (a % 4 * 16 + b / 16) :: b64c (b % 16 * 4 + c / 64) :: b64c (c % 64)
      :: base64Chunks rest

/-- `Buffer.from(s).toString('base64')`. -/
def base64Encode (s : String) : String := ⟨base64Chunks (strBytes s)⟩

/-- `deleteSecret` of src/lambda/index.ts: recovery window when the retention
setting is positive, forced delete otherwise. -/
def deleteSecret (env : Env) (r : Resource) (secretId : String) (s : St) : String × St :=
  let days := r.props.RemoveKeySecretsAfterDays
  let s :=
    if 0 < days then emit (.deleteSecret secretId (some days) false) s
    else emit (.deleteSecret secretId none true) s
  (env.deleteSecretArn secretId, s)

/-- `keyPairExists` of src/lambda/index.ts as seen through the environment:
describe by name, a not-found answer reading as `false`. -/
def keyPairExists (env : Env) (r : Resource) (s : St) : Bool × St :=
  (env.describeResult.length ≠ 0, emit (.describeKeyPairs r.props.Name) s)

/-- `deleteKeyPair` of src/lambda/index.ts: existence check first, nothing to
delete when the key pair is absent. -/
def deleteKeyPair (env : Env) (r : Resource) (s : St) : St :=
  let (exists2, s) := keyPairExists env r s
  if exists2 then emit (.deleteKeyPair r.props.Name) s else s

/-- `deletePrivateKeySecret` of src/lambda/index.ts: existence check first,
nothing to do when the secret is absent, otherwise delete and attach the
returned ARN. -/
def deletePrivateKeySecret (env : Env) (r : Resource) (s : St) : St :=
  let arn := privPath r
  let s := emit (.listSecrets arn) s
  if env.secretExists arn then
    let (outArn, s) := deleteSecret env r arn s
    addResp "PrivateKeyARN" outArn s
  else s

/-- `deletePublicKeySecret` of src/lambda/index.ts: existence check first,
nothing to do when the secret is absent, otherwise delete and attach the
returned ARN. -/
def deletePublicKeySecret (env : Env) (r : Resource) (s : St) : St :=
  let arn := pubPath r
  let s := emit (.listSecrets arn) s
  if env.secretExists arn then
    let (outArn, s) := deleteSecret env r arn s
    addResp "PublicKeyARN" outArn s
  else s

/-- `createResource` of src/lambda/index.ts: create or import, create the
private-key secret, create the public-key secret, expose the public key. -/
def createResource (env : Env) (r : Resource) (s : St) : Outcome Unit × St :=
  let (kp, s) := createKeyPair env r s
  let s := createPrivateKeySecret env r kp s
  match createPublicKeySecret env r kp s with
  | (.fail e, s) => (.fail e, s)
  | (.ok _, s) => exposePublicKey env r kp base64Encode s

/-- The four immutable-field error messages of the Update path. -/
def immutableErrors : List String :=
  ["A Key Pair cannot be renamed. Please create a new Key Pair instead",
   "Once created, a key cannot be modified or accessed. Therefore the public key can only be stored, when the key is created.",
   "You cannot change the public key of an exiting key pair. Please delete the key pair and create a new one.",
   "The type of a key pair cannot be changed. Please create a new key pair instead"]

/-- `updateResource` of src/lambda/index.ts: immutability checks first, then
describe, tag reconciliation against the key pair, metadata and tag updates
of the existing secrets, and exposure of the public key. -/
def updateResource (env : Env) (r : Resource) (s : St) : Outcome Unit × St :=
  if r.props.Name ≠ r.old.Name then
    (.fail "A Key Pair cannot be renamed. Please create a new Key Pair instead", s)
  else if r.props.StorePublicKey ≠ r.old.StorePublicKey then
    (.fail "Once created, a key cannot be modified or accessed. Therefore the public key can only be stored, when the key is created.", s)
  else if r.props.PublicKey ≠ r.old.PublicKey then
    (.fail "You cannot change the public key of an exiting key pair. Please delete the key pair and create a new one.", s)
  else if r.props.KeyType ≠ oldKeyTypeEff r then
    (.fail "The type of a key pair cannot be changed. Please create a new key pair instead", s)
  else
    match updateKeyPair env r s with
    | (.fail e, s) => (.fail e, s)
    | (.ok kp, s) =>
      let s := updateKeyPairAddTags r kp.KeyPairId s
      let s := updateKeyPairRemoveTags r kp.KeyPairId s
      let s :=
        if r.props.PublicKey.length = 0 then
          let sid := privPath r
          let s := updatePrivateKeySecret env r s
          let s := updateSecretAddTags r sid s
          updateSecretRemoveTags r sid s
        else s
      let s :=
        if r.props.StorePublicKey = "true" then
          let sid := pubPath r
          let s := updatePublicKeySecret env r s
          let s := updateSecretAddTags r sid s
          updateSecretRemoveTags r sid s
        else s
      exposePublicKey env r kp base64Encode s

/-- `deleteResource` of src/lambda/index.ts: delete the key pair, then each
secret, every step idempotent through its existence check. -/
def deleteResource (env : Env) (r : Resource) (s : St) : Outcome Unit × St :=
  let s := deleteKeyPair env r s
  let s := deletePrivateKeySecret env r s
  let s := deletePublicKeySecret env r s
  (.ok (), s)

/-! ## The CDK construct's synth-time validation -/

/-- The construct properties the validation reads (`KeyPairProps`), with the
defaults of the construct already applied to the format
(`publicKeyFormat ?? OPENSSH`) and to the imported key (`publicKey ?? ''`). -/
structure KeyPairProps where
  keyPairName : String
  publicKey : String
  keyType : String
  publicKeyFormat : String
  formatGiven : Bool
  removeKeySecretsAfterDays : Int
deriving DecidableEq, Repr

/-- Modelled from the spec: the synth-time validation of the current
`KeyPair` construct constructor. The keyType-aware constructor is not
present under src (src/unnamed/part_006 is the immediately preceding
variant without a `keyType` property, while the published types in
src/unnamed/part_002 and the test stack in src/test/lib/test-stack.ts
declare and exercise `keyType`): per the spec, the constructor validates the
retention window (0 or 7 to 30), requires the OpenSSH format for an
imported key, and rejects the combination of key type ED25519 with format
PKCS#1 before any remote call is made, since PKCS#1 is not defined for
ED25519 keys. The returned list holds the synth errors; construction issues
no remote call, so a nonempty list fails synthesis before deployment. -/
def keyPairConstructErrors (p : KeyPairProps) : List String :=
  (if p.removeKeySecretsAfterDays ≠ 0 ∧
      (p.removeKeySecretsAfterDays < 0 ∨
        (0 < p.removeKeySecretsAfterDays ∧ p.removeKeySecretsAfterDays < 7) ∨
        30 < p.removeKeySecretsAfterDays) then
    ["Parameter removeKeySecretsAfterDays must be 0 or between 7 and 30"]
  else []) ++
  (if p.publicKey.length ≠ 0 ∧ p.formatGiven ∧ p.publicKeyFormat ≠ "openssh" then
    ["When importing a key, the format has to be of type OpenSSH"]
  else []) ++
  (if p.keyType = "ed25519" ∧ p.publicKeyFormat = "pkcs1" then
    ["The public key format pkcs1 is not supported for the key type ed25519"]
  else [])

/-- Modelled from the spec: remote calls issued while the construct is being
constructed. Construction is pure synthesis — the backing function runs only
at deployment — so the list is empty by the construct's design. -/
def keyPairConstructCalls (_p : KeyPairProps) : List ApiCall := []

/-! ## Applying a computed tag delta to a remotely tagged resource

The remote tag state of a resource is a map from key to value. A CreateTags
or TagResource call upserts every tag it carries in order; a DeleteTags or
UntagResource call drops the keys it names. -/

/-- Upsert of one tag into a tag state. -/
def upd (m : String → Option String) (t : Tag) : String → Option String :=
  fun k => if k = t.Key then some t.Value else m k

/-- Apply a sent tag list to a tag state, in order (CreateTags /
TagResource semantics). -/
def applyAdds (m : String → Option String) (ts : List Tag) : String → Option String :=
  ts.foldl upd m

/-- Remove the named keys from a tag state (DeleteTags / UntagResource
semantics). -/
def applyRemoves (m : String → Option String) (ks : List String) : String → Option String :=
  fun k => if k ∈ ks then none else m k

/-- The tag state of a resource tagged with exactly the given list. -/
def toTagState (ts : List Tag) : String → Option String :=
  applyAdds (fun _ => none) ts

/-- The value the last tag of the list carrying the key assigns, if any. -/
def findLastKey : List Tag → String → Option String
  | [], _ => none
  | t :: ts, k =>
    match findLastKey ts k with
    | some v => some v
    | none => if k = t.Key then some t.Value else none

/-- The three provenance tag keys. -/
def provKeys : List String :=
  ["aws-cloudformation:stack-id", "aws-cloudformation:stack-name",
   "aws-cloudformation:logical-id"]

/-- Tag lists sent by a call (creation-time tags, CreateTags, TagResource). -/
def sentTags : ApiCall → List (List Tag)
  | .importKeyPair _ _ ts => [ts]
  | .createKeyPair _ _ ts => [ts]
  | .createTags _ ts => [ts]
  | .createSecret _ _ _ _ ts => [ts]
  | .tagResource _ ts => [ts]
  | _ => []

/-- Tag keys removed by a call (DeleteTags, UntagResource). -/
def removedKeys : ApiCall → List String
  | .deleteTags _ ts => ts.map (fun t => t.Key)
  | .untagResource _ ks => ks
  | _ => []

/-- The provenance discipline of one call: every sent tag list contains the
three provenance tags of the resource, and no removed key is a provenance
key. -/
def provDiscipline (r : Resource) (c : ApiCall) : Prop :=
  (∀ ts ∈ sentTags c,
    (⟨"aws-cloudformation:stack-id", r.StackId⟩ : Tag) ∈ ts ∧
    (⟨"aws-cloudformation:stack-name", r.props.StackName⟩ : Tag) ∈ ts ∧
    (⟨"aws-cloudformation:logical-id", r.LogicalResourceId⟩ : Tag) ∈ ts) ∧
  (∀ k ∈ removedKeys c, k ∉ provKeys)

/-! ## Lemmas about the tag reconciler -/

theorem applyAdds_apply (ts : List Tag) (m : String → Option String) (k : String) :
    applyAdds m ts k = match findLastKey ts k with | some v => some v | none => m k := by
  induction ts generalizing m with
  | nil => simp [applyAdds, findLastKey]
  | cons t ts ih =>
    show applyAdds (upd m t) ts k = _
    rw [ih]
    simp only [findLastKey, upd]
    cases findLastKey ts k with
    | some v => simp
    | none => by_cases hkt : k = t.Key <;> simp [hkt]

theorem findLastKey_eq_none_iff (ts : List Tag) (k : String) :
    findLastKey ts k = none ↔ ∀ t ∈ ts, t.Key ≠ k := by
  induction ts with
  | nil => simp [findLastKey]
  | cons t ts ih =>
    simp only [findLastKey, List.mem_cons]
    cases h : findLastKey ts k with
    | some v =>
      simp only []
      constructor
      · intro hc; exact absurd hc (by simp)
      · intro hall
        have : ∀ u ∈ ts, u.Key ≠ k := fun u hu => hall u (Or.inr hu)
        rw [ih.mpr this] at h; exact absurd h (by simp)
    | none =>
      have hts : ∀ u ∈ ts, u.Key ≠ k := ih.mp h
      by_cases hk : k = t.Key
      · simp only [if_pos hk]
        constructor
        · intro hc; exact absurd hc (by simp)
        · intro hall; exact absurd hk.symm (hall t (Or.inl rfl))
      · simp only [if_neg hk]
        constructor
        · intro _ u hu
          rcases hu with h1 | h2
          · rw [h1]; exact fun he => hk he.symm
          · exact hts u h2
        · intro _; trivial

theorem mem_getMissingTags_iff (oldT newT : List Tag) (k : String) :
    k ∈ getMissingTags oldT newT ↔
      (∃ t ∈ oldT, t.Key = k) ∧ ∀ u ∈ newT, u.Key ≠ k := by
  unfold getMissingTags missingTags
  simp only [List.mem_map, List.mem_filter]
  constructor
  · rintro ⟨t, ⟨htm, hmiss⟩, hk⟩
    have hlen : (newT.filter (fun u => u.Key == t.Key)).length = 0 := by
      simpa using hmiss
    have hall := List.filter_eq_nil_iff.mp (List.length_eq_zero.mp hlen)
    refine ⟨⟨t, htm, hk⟩, ?_⟩
    intro u hu he
    exact hall u hu (by simp [he, hk])
  · rintro ⟨⟨t, htm, hk⟩, hnone⟩
    refine ⟨t, ⟨htm, ?_⟩, hk⟩
    have hnil : newT.filter (fun u => u.Key == t.Key) = [] := by
      apply List.filter_eq_nil_iff.mpr
      intro u hu
      simp only [beq_iff_eq]
      rw [hk]
      exact hnone u hu
    simp [hnil]

theorem reconcile_applied (oldT newT : List Tag) (k : String) :
    applyRemoves (applyAdds (toTagState oldT) newT) (getMissingTags oldT newT) k
      = toTagState newT k := by
  unfold applyRemoves toTagState
  by_cases hk : k ∈ getMissingTags oldT newT
  · rw [if_pos hk]
    have hnew : ∀ u ∈ newT, u.Key ≠ k := ((mem_getMissingTags_iff oldT newT k).mp hk).2
    simp only [applyAdds_apply, (findLastKey_eq_none_iff newT k).mpr hnew]
  · rw [if_neg hk]
    simp only [applyAdds_apply]
    cases h : findLastKey newT k with
    | some v => simp
    | none =>
      have hnew : ∀ u ∈ newT, u.Key ≠ k := (findLastKey_eq_none_iff newT k).mp h
      have hold : ∀ t ∈ oldT, t.Key ≠ k := by
        intro t ht he
        exact hk ((mem_getMissingTags_iff oldT newT k).mpr ⟨⟨t, ht, he⟩, hnew⟩)
      simp only [(findLastKey_eq_none_iff oldT k).mpr hold]

theorem getMissingTags_eq_nil (oldT newT : List Tag)
    (h : ∀ t ∈ oldT, ∃ u ∈ newT, u.Key = t.Key) :
    getMissingTags oldT newT = [] := by
  unfold getMissingTags
  rw [List.map_eq_nil_iff]
  apply List.filter_eq_nil_iff.mpr
  intro t ht
  rcases h t ht with ⟨u, hu, hk⟩
  unfold missingTags
  intro hc
  have hlen : (newT.filter (fun v => v.Key == t.Key)).length = 0 := by simpa using hc
  have hall := List.filter_eq_nil_iff.mp (List.length_eq_zero.mp hlen)
  exact hall u hu (by simp [hk])

theorem getMissingTags_self (ts : List Tag) : getMissingTags ts ts = [] :=
  getMissingTags_eq_nil ts ts (fun t ht => ⟨t, ht, rfl⟩)

theorem prov_mem_makeTags (r : Resource) (X : TagMap) :
    (⟨"aws-cloudformation:stack-id", r.StackId⟩ : Tag) ∈ makeTags r X ∧
    (⟨"aws-cloudformation:stack-name", r.props.StackName⟩ : Tag) ∈ makeTags r X ∧
    (⟨"aws-cloudformation:logical-id", r.LogicalResourceId⟩ : Tag) ∈ makeTags r X := by
  refine ⟨?_, ?_, ?_⟩ <;> simp [makeTags]

theorem getMissingTags_not_prov (r : Resource) (A B : TagMap) :
    ∀ k ∈ getMissingTags (makeTags r A) (makeTags r B), k ∉ provKeys := by
  intro k hk hprov
  have h2 := ((mem_getMissingTags_iff _ _ k).mp hk).2
  have hm := prov_mem_makeTags r B
  simp only [provKeys, List.mem_cons, List.mem_singleton] at hprov
  rcases hprov with h | h | h
  · exact h2 _ hm.1 (by simp [h])
  · exact h2 _ hm.2.1 (by simp [h])
  · rcases h with h | hfalse
    · exact h2 _ hm.2.2 (by simp [h])
    · simp at hfalse

theorem getMissingTags_makeTags_nil (r : Resource) (A B : TagMap)
    (h : ∀ k ∈ A.map Prod.fst, k ∈ B.map Prod.fst) :
    getMissingTags (makeTags r A) (makeTags r B) = [] := by
  apply getMissingTags_eq_nil
  intro t ht
  simp only [makeTags, List.mem_append, List.mem_cons, List.mem_singleton,
    List.mem_map] at ht
  rcases ht with (h1 | h1 | h1 | hfalse) | ⟨p, hp, he⟩
  · exact ⟨_, (prov_mem_makeTags r B).1, by rw [h1]⟩
  · exact ⟨_, (prov_mem_makeTags r B).2.1, by rw [h1]⟩
  · exact ⟨_, (prov_mem_makeTags r B).2.2, by rw [h1]⟩
  · simp at hfalse
  · have hk : p.1 ∈ B.map Prod.fst := h p.1 (List.mem_map.mpr ⟨p, hp, rfl⟩)
    rcases List.mem_map.mp hk with ⟨q, hq, hqk⟩
    refine ⟨⟨q.1, q.2⟩, ?_, by rw [← he, hqk]⟩
    simp only [makeTags, List.mem_append, List.mem_map]
    exact Or.inr ⟨q, hq, rfl⟩

theorem privPath_ne_pubPath (r : Resource) : privPath r ≠ pubPath r := by
  unfold privPath pubPath
  intro h
  have h2 := congrArg String.length h
  simp only [String.length_append] at h2
  rw [show ("/private" : String).length = 8 from rfl,
    show ("/public" : String).length = 7 from rfl] at h2
  omega

theorem utf8Bytes_ne_nil (c : Char) : utf8Bytes c ≠ [] := by
  unfold utf8Bytes
  split
  · simp
  · split
    · simp
    · split <;> simp

theorem strBytes_ne_nil (s : String) (h : s ≠ "") : strBytes s ≠ [] := by
  cases s with
  | mk l =>
    cases l with
    | nil => exact absurd rfl h
    | cons c cs =>
      show (c :: cs).flatMap utf8Bytes ≠ []
      rw [List.flatMap_cons]
      intro hc
      exact utf8Bytes_ne_nil c (List.append_eq_nil.mp hc).1

theorem base64Chunks_ne_nil (l : List Nat) (h : l ≠ []) : base64Chunks l ≠ [] := by
  match l with
  | [] => exact absurd rfl h
  | [a] => simp [base64Chunks]
  | [a, b] => simp [base64Chunks]
  | a :: b :: c :: rest => simp [base64Chunks]

theorem base64Encode_ne_empty (s : String) (h : s ≠ "") : base64Encode s ≠ "" := by
  unfold base64Encode
  intro hc
  have hdata : base64Chunks (strBytes s) = [] := by
    have := congrArg String.data hc
    simpa using this
  exact base64Chunks_ne_nil _ (strBytes_ne_nil s h) hdata

/-- The public-key formats the codec enumerates. -/
def supportedFormats : List String :=
  ["openssh", "ssh", "pem", "pkcs1", "pkcs8", "rfc4253", "putty"]

/-- A concrete environment used by the witnesses. -/
def env0 : Env :=
  { importResult := ⟨"a-key", "key-1", "fp-1"⟩
    createResult := ⟨"a-key", "key-1", "fp-1"⟩
    createdKeyMaterial := "KEYMATERIAL"
    describeResult := [⟨"a-key", "key-1", "fp-1"⟩]
    secretExists := fun _ => false
    createSecretArn := fun n => "arn:" ++ n
    updateSecretArn := fun n => "arn:" ++ n
    deleteSecretArn := fun n => "arn:" ++ n
    getSecretValue := fun _ => "KEYMATERIAL"
    derivePublicKey := fun _ _ => .ok "PUBKEY" }

/-- Concrete resource properties used by the witnesses. -/
def props0 : ResourceProps :=
  ⟨"a-key", "false", "false", "", "ec2-ssh-key/", "desc", "kmsA", "kmsB", "rsa",
    "openssh", 0, "stack-1", []⟩

/-- A concrete resource with unchanged properties. -/
def r0 : Resource :=
  { props := props0, old := props0, oldHasKeyType := true,
    StackId := "stack-id-1", LogicalResourceId := "logical-1" }

/-- A resource whose Update event renames the key pair. -/
def r1 : Resource :=
  { props := { props0 with Name := "b-key" }, old := props0, oldHasKeyType := true,
    StackId := "stack-id-1", LogicalResourceId := "logical-1" }

/-- C1: an Update event that changes the immutable Name, StorePublicKey,
PublicKey content or KeyType property fails with one of the descriptive
immutable-field error messages, and the remote-call trace stays empty: no
compute-resource or secret-storage call, mutating or otherwise, is issued
before the failure is reported. -/
theorem claim_C1_update_immutable_fails (env : Env) (r : Resource)
    (h : r.props.Name ≠ r.old.Name ∨ r.props.StorePublicKey ≠ r.old.StorePublicKey ∨
      r.props.PublicKey ≠ r.old.PublicKey ∨ r.props.KeyType ≠ oldKeyTypeEff r) :
    ∃ msg ∈ immutableErrors, updateResource env r St.empty = (.fail msg, St.empty) := by
  unfold updateResource
  by_cases h1 : r.props.Name ≠ r.old.Name
  · rw [if_pos h1]; exact ⟨_, by simp [immutableErrors], rfl⟩
  · rw [if_neg h1]
    by_cases h2 : r.props.StorePublicKey ≠ r.old.StorePublicKey
    · rw [if_pos h2]; exact ⟨_, by simp [immutableErrors], rfl⟩
    · rw [if_neg h2]
      by_cases h3 : r.props.PublicKey ≠ r.old.PublicKey
      · rw [if_pos h3]; exact ⟨_, by simp [immutableErrors], rfl⟩
      · rw [if_neg h3]
        have h4 : r.props.KeyType ≠ oldKeyTypeEff r := by tauto
        rw [if_pos h4]; exact ⟨_, by simp [immutableErrors], rfl⟩

/-- Witness for C1: the renamed key pair of `r1` is rejected on an empty
trace. -/
theorem claim_C1_witness :
    (r1.props.Name ≠ r1.old.Name ∨ r1.props.StorePublicKey ≠ r1.old.StorePublicKey ∨
      r1.props.PublicKey ≠ r1.old.PublicKey ∨ r1.props.KeyType ≠ oldKeyTypeEff r1) ∧
    ∃ msg ∈ immutableErrors, updateResource env0 r1 St.empty = (.fail msg, St.empty) :=
  ⟨Or.inl (by decide), claim_C1_update_immutable_fails env0 r1 (Or.inl (by decide))⟩

/-- C3: a key pair declared with key type ED25519 and public-key format
PKCS#1 fails the construct's synth-time validation, which runs before
deployment and hence before any remote call: the constructor issues no
remote call at all. -/
theorem claim_C3_ed25519_pkcs1_rejected (p : KeyPairProps)
    (h1 : p.keyType = "ed25519") (h2 : p.publicKeyFormat = "pkcs1") :
    keyPairConstructErrors p ≠ [] ∧ keyPairConstructCalls p = [] := by
  refine ⟨?_, rfl⟩
  have hmem : "The public key format pkcs1 is not supported for the key type ed25519"
      ∈ keyPairConstructErrors p := by
    unfold keyPairConstructErrors
    refine List.mem_append_right _ ?_
    rw [if_pos ⟨h1, h2⟩]
    simp
  exact List.ne_nil_of_mem hmem

/-- Witness for C3 at a concrete ED25519 + PKCS#1 construct declaration. -/
theorem claim_C3_witness :
    (⟨"a-key", "", "ed25519", "pkcs1", true, 0⟩ : KeyPairProps).keyType = "ed25519" ∧
    keyPairConstructErrors ⟨"a-key", "", "ed25519", "pkcs1", true, 0⟩ ≠ [] ∧
    keyPairConstructCalls ⟨"a-key", "", "ed25519", "pkcs1", true, 0⟩ = [] :=
  ⟨rfl, claim_C3_ed25519_pkcs1_rejected ⟨"a-key", "", "ed25519", "pkcs1", true, 0⟩ rfl rfl⟩

/-- C4: for all tag maps A and B, applying the full add set (the whole new
tag list, CreateTags/TagResource upsert semantics) and then the remove set
computed by `getMissingTags` to a resource initially tagged with A plus the
three provenance tags yields a resource tagged exactly with B plus the
three provenance tags, at every key. -/
theorem claim_C4_reconcile_roundtrip (r : Resource) (A B : TagMap) (k : String) :
    applyRemoves (applyAdds (toTagState (makeTags r A)) (makeTags r B))
      (getMissingTags (makeTags r A) (makeTags r B)) k
      = toTagState (makeTags r B) k :=
  reconcile_applied (makeTags r A) (makeTags r B) k

/-- C5: reconciling a tag map against itself produces an empty remove set,
and the structural-equality fast path makes every tag-reconciliation step a
no-op that issues no remote call when the tag map is unchanged. -/
theorem claim_C5_reconcile_self (r : Resource) (kid sid : String) (s : St) (A : TagMap)
    (h : r.props.Tags = r.old.Tags) :
    getMissingTags (makeTags r A) (makeTags r A) = [] ∧
    updateKeyPairAddTags r kid s = s ∧
    updateKeyPairRemoveTags r kid s = s ∧
    updateSecretAddTags r sid s = s ∧
    updateSecretRemoveTags r sid s = s := by
  refine ⟨getMissingTags_self _, ?_, ?_, ?_, ?_⟩ <;>
    simp [updateKeyPairAddTags, updateKeyPairRemoveTags, updateSecretAddTags,
      updateSecretRemoveTags, h]

/-- Witness for C5 on a concrete unchanged tag map. -/
theorem claim_C5_witness :
    r0.props.Tags = r0.old.Tags ∧
    getMissingTags (makeTags r0 [("env", "dev")]) (makeTags r0 [("env", "dev")]) = [] ∧
    updateKeyPairAddTags r0 "key-1" St.empty = St.empty :=
  ⟨rfl,
    (claim_C5_reconcile_self r0 "key-1" "sid0" St.empty [("env", "dev")] rfl).1,
    (claim_C5_reconcile_self r0 "key-1" "sid0" St.empty [("env", "dev")] rfl).2.1⟩

/-- C10: for a non-imported Create event the public key is derived before
the StorePublicKey flag is consulted, so a failing codec (unparsable key or
unsupported format combination) fails the whole Create even when the public
key would never be stored (StorePublicKey false) nor exposed
(ExposePublicKey false). -/
theorem claim_C10_derivation_before_store_flag (env : Env) (r : Resource) (e : String)
    (himp : r.props.PublicKey = "")
    (_hstore : r.props.StorePublicKey = "false")
    (_hexp : r.props.ExposePublicKey = "false")
    (hfail : env.derivePublicKey env.createdKeyMaterial r.props.PublicKeyFormat = .error e) :
    (createResource env r St.empty).1 = .fail e := by
  have hlen : ¬(r.props.PublicKey.length ≠ 0) := by rw [himp]; simp
  simp only [createResource, createKeyPair, createPrivateKeySecret,
    createPublicKeySecret, makePublicKey, hlen, if_false, hfail]

/-- Witness for C10: a failing codec fails the Create of `props0` though
nothing would be stored or exposed. -/
theorem claim_C10_witness :
    r0.props.PublicKey = "" ∧
    (createResource { env0 with derivePublicKey := fun _ _ => .error "cannot parse" }
      r0 St.empty).1 = .fail "cannot parse" :=
  ⟨rfl,
    claim_C10_derivation_before_store_flag
      { env0 with derivePublicKey := fun _ _ => .error "cannot parse" }
      r0 "cannot parse" rfl rfl rfl rfl⟩

/-- C7: with ExposePublicKey true, the attached PublicKeyValue is the
codec-derived public key, base64-encoded exactly when the requested format
is the raw wire format rfc4253 (the lifecycle response transport cannot
carry raw binary); for every supported format the attached value is
non-empty whenever the codec's output is. -/
theorem claim_C7_expose_value (env : Env) (r : Resource) (kp : KeyPairData) (s : St)
    (m pk : String)
    (hexp : r.props.ExposePublicKey = "true")
    (himp : r.props.PublicKey = "")
    (hm : kp.KeyMaterial = some m)
    (hd : env.derivePublicKey m r.props.PublicKeyFormat = .ok pk)
    (_hfmt : r.props.PublicKeyFormat ∈ supportedFormats)
    (hpk : pk ≠ "") :
    exposePublicKey env r kp base64Encode s
      = (.ok (), addResp "PublicKeyValue"
          (if r.props.PublicKeyFormat = "rfc4253" then base64Encode pk else pk) s) ∧
    (if r.props.PublicKeyFormat = "rfc4253" then base64Encode pk else pk) ≠ "" := by
  have hlen : ¬(r.props.PublicKey.length ≠ 0) := by rw [himp]; simp
  constructor
  · simp only [exposePublicKey, makePublicKey, hexp, hlen, hm, hd, if_false, if_true]
  · by_cases hf : r.props.PublicKeyFormat = "rfc4253"
    · rw [if_pos hf]; exact base64Encode_ne_empty pk hpk
    · rw [if_neg hf]; exact hpk

/-- A resource requesting exposure in the raw wire format. -/
def r7 : Resource :=
  { props := { props0 with ExposePublicKey := "true", PublicKeyFormat := "rfc4253" },
    old := props0, oldHasKeyType := true, StackId := "stack-id-1",
    LogicalResourceId := "logical-1" }

/-- Witness for C7: an exposed rfc4253 key is attached base64-encoded. -/
theorem claim_C7_witness :
    r7.props.ExposePublicKey = "true" ∧
    exposePublicKey env0 r7 ⟨"a-key", "key-1", "fp-1", some "KEYMATERIAL"⟩
        base64Encode St.empty
      = (.ok (), addResp "PublicKeyValue"
          (if r7.props.PublicKeyFormat = "rfc4253" then base64Encode "PUBKEY"
           else "PUBKEY") St.empty) ∧
    (if r7.props.PublicKeyFormat = "rfc4253" then base64Encode "PUBKEY" else "PUBKEY") ≠ "" :=
  ⟨rfl,
    (claim_C7_expose_value env0 r7 ⟨"a-key", "key-1", "fp-1", some "KEYMATERIAL"⟩
      St.empty "KEYMATERIAL" "PUBKEY" rfl rfl rfl rfl (by decide) (by decide)).1,
    (claim_C7_expose_value env0 r7 ⟨"a-key", "key-1", "fp-1", some "KEYMATERIAL"⟩
      St.empty "KEYMATERIAL" "PUBKEY" rfl rfl rfl rfl (by decide) (by decide)).2⟩

/-- C2: a Create event with a non-empty PublicKey property (an imported key
pair) succeeds without issuing any create-secret call for the private-key
secret, and the PrivateKeyARN response attribute is the empty string. -/
theorem claim_C2_imported_create (env : Env) (r : Resource)
    (h : r.props.PublicKey.length ≠ 0) :
    (createResource env r St.empty).1 = .ok () ∧
    respGet (createResource env r St.empty).2 "PrivateKeyARN" = some "" ∧
    ∀ c ∈ (createResource env r St.empty).2.calls,
      ∀ d v km ts, c ≠ .createSecret (privPath r) d v km ts := by
  have hpub : pubPath r ≠ privPath r := Ne.symm (privPath_ne_pubPath r)
  by_cases hst : r.props.StorePublicKey = "true" <;>
    by_cases hex : r.props.ExposePublicKey = "true" <;>
    refine ⟨?_, ?_, ?_⟩ <;>
      simp [createResource, createKeyPair, createPrivateKeySecret, createPublicKeySecret,
        exposePublicKey, makePublicKey, emit, addResp, respGet, St.empty, h, hst, hex, hpub]

/-- A resource importing an externally supplied public key. -/
def r2 : Resource :=
  { props := { props0 with PublicKey := "ssh-rsa AAAA imported" }, old := props0,
    oldHasKeyType := true, StackId := "stack-id-1", LogicalResourceId := "logical-1" }

/-- Witness for C2: the imported create of `r2` never creates a private-key
secret and reports an empty PrivateKeyARN. -/
theorem claim_C2_witness :
    r2.props.PublicKey.length ≠ 0 ∧
    (createResource env0 r2 St.empty).1 = .ok () ∧
    respGet (createResource env0 r2 St.empty).2 "PrivateKeyARN" = some "" :=
  ⟨by decide, (claim_C2_imported_create env0 r2 (by decide)).1,
    (claim_C2_imported_create env0 r2 (by decide)).2.1⟩

/-- C8: a Delete event finding both secrets already absent still completes
successfully whether or not the key pair itself still exists: the existence
checks turn absence into nothing-to-do, no delete-secret call is issued,
and the PrivateKeyARN and PublicKeyARN response attributes read as empty. -/
theorem claim_C8_delete_idempotent (env : Env) (r : Resource)
    (h1 : env.secretExists (privPath r) = false)
    (h2 : env.secretExists (pubPath r) = false) :
    (deleteResource env r St.empty).1 = .ok () ∧
    (∀ c ∈ (deleteResource env r St.empty).2.calls,
      ∀ sid w f, c ≠ .deleteSecret sid w f) ∧
    respGetD (deleteResource env r St.empty).2 "PrivateKeyARN" = "" ∧
    respGetD (deleteResource env r St.empty).2 "PublicKeyARN" = "" := by
  by_cases hkp : env.describeResult.length ≠ 0 <;>
    refine ⟨rfl, ?_, ?_, ?_⟩ <;>
      simp [deleteResource, deleteKeyPair, keyPairExists, deletePrivateKeySecret,
        deletePublicKeySecret, deleteSecret, emit, addResp, respGet, respGetD,
        St.empty, h1, h2, hkp]

/-- Witness for C8: deleting `r0` with both secrets absent succeeds with
empty ARN attributes. -/
theorem claim_C8_witness :
    env0.secretExists (privPath r0) = false ∧
    (deleteResource env0 r0 St.empty).1 = .ok () ∧
    respGetD (deleteResource env0 r0 St.empty).2 "PrivateKeyARN" = "" ∧
    respGetD (deleteResource env0 r0 St.empty).2 "PublicKeyARN" = "" :=
  ⟨rfl, (claim_C8_delete_idempotent env0 r0 rfl rfl).1,
    (claim_C8_delete_idempotent env0 r0 rfl rfl).2.2.1,
    (claim_C8_delete_idempotent env0 r0 rfl rfl).2.2.2⟩

/-! ## Provenance discipline of whole traces -/

/-- Every call of the trace obeys the provenance discipline. -/
def TraceOK (r : Resource) (s : St) : Prop := ∀ c ∈ s.calls, provDiscipline r c

theorem traceOK_empty (r : Resource) : TraceOK r St.empty := by
  intro c hc
  simp [St.empty] at hc

theorem traceOK_addResp (r : Resource) (k v : String) (s : St) (h : TraceOK r s) :
    TraceOK r (addResp k v s) := fun c hc => h c hc

theorem traceOK_emit (r : Resource) (c : ApiCall) (s : St) (h : TraceOK r s)
    (hc : provDiscipline r c) : TraceOK r (emit c s) := by
  intro d hd
  rcases (by simpa [emit] using hd : d ∈ s.calls ∨ d = c) with h1 | h1
  · exact h d h1
  · rw [h1]; exact hc

theorem provDiscipline_no_tags (r : Resource) (c : ApiCall)
    (hs : sentTags c = []) (hr : removedKeys c = []) : provDiscipline r c := by
  constructor <;> simp [hs, hr]

theorem provDiscipline_makeTags_sent (r : Resource) (c : ApiCall)
    (hs : sentTags c = [makeTags r r.props.Tags]) (hr : removedKeys c = []) :
    provDiscipline r c := by
  constructor
  · intro ts hts
    rw [hs] at hts
    rw [List.mem_singleton.mp hts]
    exact prov_mem_makeTags r _
  · simp [hr]

theorem provDiscipline_removes_missing (r : Resource) (c : ApiCall) (A B : TagMap)
    (hs : sentTags c = [])
    (hr : removedKeys c = getMissingTags (makeTags r A) (makeTags r B)) :
    provDiscipline r c := by
  constructor
  · simp [hs]
  · intro k hk
    rw [hr] at hk
    exact getMissingTags_not_prov r A B k hk

theorem traceOK_createKeyPair (env : Env) (r : Resource) (s : St) (h : TraceOK r s) :
    TraceOK r (createKeyPair env r s).2 := by
  unfold createKeyPair
  split <;>
    exact traceOK_addResp _ _ _ _ (traceOK_addResp _ _ _ _ (traceOK_addResp _ _ _ _
      (traceOK_emit _ _ _ h (provDiscipline_makeTags_sent r _ rfl rfl))))

theorem traceOK_createPrivateKeySecret (env : Env) (r : Resource) (kp : KeyPairData)
    (s : St) (h : TraceOK r s) : TraceOK r (createPrivateKeySecret env r kp s) := by
  unfold createPrivateKeySecret
  split
  · exact traceOK_addResp _ _ _ _ h
  · exact traceOK_addResp _ _ _ _
      (traceOK_emit _ _ _ h (provDiscipline_makeTags_sent r _ rfl rfl))

theorem traceOK_makePublicKey (env : Env) (r : Resource) (kp : KeyPairData) (s : St)
    (h : TraceOK r s) : TraceOK r (makePublicKey env r kp s).2 := by
  unfold makePublicKey
  have hmt : TraceOK r (match kp.KeyMaterial with
      | some m => (m, s)
      | none => getPrivateKey env r s).2 := by
    cases kp.KeyMaterial with
    | some m => exact h
    | none =>
      unfold getPrivateKey
      exact traceOK_emit r _ s h (provDiscipline_no_tags r _ rfl rfl)
  dsimp only
  split <;> exact hmt

theorem traceOK_createPublicKeySecret (env : Env) (r : Resource) (kp : KeyPairData)
    (s : St) (h : TraceOK r s) : TraceOK r (createPublicKeySecret env r kp s).2 := by
  unfold createPublicKeySecret
  by_cases him : r.props.PublicKey.length ≠ 0
  · rw [if_pos him]
    dsimp only
    split
    · exact h
    · exact traceOK_addResp _ _ _ _
        (traceOK_emit _ _ _ h (provDiscipline_makeTags_sent r _ rfl rfl))
  · rw [if_neg him]
    dsimp only
    split
    · rename_i heq
      have h2 := traceOK_makePublicKey env r kp s h
      rw [heq] at h2
      exact h2
    · rename_i heq
      have h2 := traceOK_makePublicKey env r kp s h
      rw [heq] at h2
      split
      · exact h2
      · exact traceOK_addResp _ _ _ _
          (traceOK_emit _ _ _ h2 (provDiscipline_makeTags_sent r _ rfl rfl))

theorem traceOK_exposePublicKey (env : Env) (r : Resource) (kp : KeyPairData)
    (b64 : String → String) (s : St) (h : TraceOK r s) :
    TraceOK r (exposePublicKey env r kp b64 s).2 := by
  unfold exposePublicKey
  split
  · by_cases him : r.props.PublicKey.length ≠ 0
    · rw [if_pos him]
      dsimp only
      split
      · exact h
      · exact traceOK_addResp _ _ _ _ h
    · rw [if_neg him]
      dsimp only
      split
      · rename_i heq
        have h2 := traceOK_makePublicKey env r kp s h
        rw [heq] at h2
        exact h2
      · rename_i heq
        have h2 := traceOK_makePublicKey env r kp s h
        rw [heq] at h2
        exact traceOK_addResp _ _ _ _ h2
  · exact traceOK_addResp _ _ _ _ h

theorem traceOK_createResource (env : Env) (r : Resource) (s : St) (h : TraceOK r s) :
    TraceOK r (createResource env r s).2 := by
  unfold createResource
  dsimp only
  have h1 := traceOK_createKeyPair env r s h
  have h2 := traceOK_createPrivateKeySecret env r (createKeyPair env r s).1
    (createKeyPair env r s).2 h1
  split
  · rename_i heq2
    have h3 := traceOK_createPublicKeySecret env r (createKeyPair env r s).1 _ h2
    rw [heq2] at h3
    exact h3
  · rename_i heq2
    have h3 := traceOK_createPublicKeySecret env r (createKeyPair env r s).1 _ h2
    rw [heq2] at h3
    exact traceOK_exposePublicKey env r _ _ _ h3

theorem traceOK_updateKeyPair (env : Env) (r : Resource) (s : St) (h : TraceOK r s) :
    TraceOK r (updateKeyPair env r s).2 := by
  unfold updateKeyPair
  have he := traceOK_emit r (ApiCall.describeKeyPairs r.props.Name) s h
    (provDiscipline_no_tags r _ rfl rfl)
  dsimp only
  split
  · exact traceOK_addResp _ _ _ _ (traceOK_addResp _ _ _ _ (traceOK_addResp _ _ _ _ he))
  · exact he

theorem traceOK_updateKeyPairAddTags (r : Resource) (kid : String) (s : St)
    (h : TraceOK r s) : TraceOK r (updateKeyPairAddTags r kid s) := by
  unfold updateKeyPairAddTags
  split
  · exact h
  · exact traceOK_emit _ _ _ h (provDiscipline_makeTags_sent r _ rfl rfl)

theorem traceOK_updateKeyPairRemoveTags (r : Resource) (kid : String) (s : St)
    (h : TraceOK r s) : TraceOK r (updateKeyPairRemoveTags r kid s) := by
  unfold updateKeyPairRemoveTags
  split
  · exact h
  · dsimp only
    split
    · exact h
    · apply traceOK_emit _ _ _ h
      refine provDiscipline_removes_missing r _ r.old.Tags r.props.Tags ?_ ?_
      · rfl
      · simp only [removedKeys, List.map_map]
        have hcomp : ((fun t : Tag => t.Key) ∘ fun k =>
            (⟨k, recordGet r.old.Tags k⟩ : Tag)) = id := by
          funext k
          rfl
        rw [hcomp, List.map_id]

theorem traceOK_updatePrivateKeySecret (env : Env) (r : Resource) (s : St)
    (h : TraceOK r s) : TraceOK r (updatePrivateKeySecret env r s) := by
  unfold updatePrivateKeySecret
  exact traceOK_addResp _ _ _ _ (traceOK_emit _ _ _ h (provDiscipline_no_tags r _ rfl rfl))

theorem traceOK_updatePublicKeySecret (env : Env) (r : Resource) (s : St)
    (h : TraceOK r s) : TraceOK r (updatePublicKeySecret env r s) := by
  unfold updatePublicKeySecret
  dsimp only
  have he := traceOK_emit r (ApiCall.listSecrets (pubPath r)) s h
    (provDiscipline_no_tags r _ rfl rfl)
  split
  · exact traceOK_addResp _ _ _ _
      (traceOK_emit _ _ _ he (provDiscipline_no_tags r _ rfl rfl))
  · exact he

theorem traceOK_updateSecretAddTags (r : Resource) (sid : String) (s : St)
    (h : TraceOK r s) : TraceOK r (updateSecretAddTags r sid s) := by
  unfold updateSecretAddTags
  split
  · exact h
  · exact traceOK_emit _ _ _ h (provDiscipline_makeTags_sent r _ rfl rfl)

theorem traceOK_updateSecretRemoveTags (r : Resource) (sid : String) (s : St)
    (h : TraceOK r s) : TraceOK r (updateSecretRemoveTags r sid s) := by
  unfold updateSecretRemoveTags
  split
  · exact h
  · dsimp only
    split
    · exact h
    · apply traceOK_emit _ _ _ h
      refine provDiscipline_removes_missing r _ r.old.Tags r.props.Tags ?_ ?_
      · rfl
      · rfl

theorem traceOK_updateResource (env : Env) (r : Resource) (s : St) (h : TraceOK r s) :
    TraceOK r (updateResource env r s).2 := by
  unfold updateResource
  split
  · exact h
  · split
    · exact h
    · split
      · exact h
      · split
        · exact h
        · have hukp := traceOK_updateKeyPair env r s h
          dsimp only
          split
          · rename_i heq
            rw [heq] at hukp
            exact hukp
          · rename_i heq
            rw [heq] at hukp
            have hs2 := hukp
            apply traceOK_exposePublicKey
            split
            · apply traceOK_updateSecretRemoveTags
              apply traceOK_updateSecretAddTags
              apply traceOK_updatePublicKeySecret
              split
              · apply traceOK_updateSecretRemoveTags
                apply traceOK_updateSecretAddTags
                apply traceOK_updatePrivateKeySecret
                apply traceOK_updateKeyPairRemoveTags
                exact traceOK_updateKeyPairAddTags _ _ _ hs2
              · apply traceOK_updateKeyPairRemoveTags
                exact traceOK_updateKeyPairAddTags _ _ _ hs2
            · split
              · apply traceOK_updateSecretRemoveTags
                apply traceOK_updateSecretAddTags
                apply traceOK_updatePrivateKeySecret
                apply traceOK_updateKeyPairRemoveTags
                exact traceOK_updateKeyPairAddTags _ _ _ hs2
              · apply traceOK_updateKeyPairRemoveTags
                exact traceOK_updateKeyPairAddTags _ _ _ hs2

/-- C6: on every Create or Update event, every call of the trace obeys the
provenance discipline: each tag set sent with a creation or tag-add call
contains the three system-injected provenance tags (stack id, stack name,
logical id), and no computed remove set names a provenance tag key. -/
theorem claim_C6_provenance_discipline (env : Env) (r : Resource) :
    (∀ c ∈ (createResource env r St.empty).2.calls, provDiscipline r c) ∧
    (∀ c ∈ (updateResource env r St.empty).2.calls, provDiscipline r c) :=
  ⟨traceOK_createResource env r St.empty (traceOK_empty r),
    traceOK_updateResource env r St.empty (traceOK_empty r)⟩

/-- Witness for C6: the creation call of the Create trace of `r0` carries
the provenance tags. -/
theorem claim_C6_witness :
    (ApiCall.createKeyPair "a-key" "rsa" (makeTags r0 []))
        ∈ (createResource env0 r0 St.empty).2.calls ∧
    provDiscipline r0 (ApiCall.createKeyPair "a-key" "rsa" (makeTags r0 [])) :=
  ⟨by decide,
    (claim_C6_provenance_discipline env0 r0).1 _ (by decide)⟩

/-! ## Counting tag calls in a trace -/

/-- Test for a CreateTags call against the compute resource. -/
def isCreateTags : ApiCall → Bool
  | .createTags _ _ => true
  | _ => false

/-- Test for a DeleteTags call against the compute resource. -/
def isDeleteTags : ApiCall → Bool
  | .deleteTags _ _ => true
  | _ => false

/-- Test for a TagResource call against the given secret. -/
def isTagResourceFor (sid : String) : ApiCall → Bool
  | .tagResource s _ => s == sid
  | _ => false

/-- Test for an UntagResource call. -/
def isUntagResource : ApiCall → Bool
  | .untagResource _ _ => true
  | _ => false

theorem countP_exposePublicKey (env : Env) (r : Resource) (kp : KeyPairData)
    (b64 : String → String) (s : St) (p : ApiCall → Bool)
    (hp : ∀ sid, p (ApiCall.getSecretValue sid) = false) :
    (exposePublicKey env r kp b64 s).2.calls.countP p = s.calls.countP p := by
  unfold exposePublicKey makePublicKey getPrivateKey
  split
  · by_cases him : r.props.PublicKey.length ≠ 0
    · rw [if_pos him]
      dsimp only
      simp [addResp]
    · rw [if_neg him]
      dsimp only
      cases hkm : kp.KeyMaterial with
      | some m =>
        simp only [hkm]
        cases env.derivePublicKey m r.props.PublicKeyFormat <;> simp [addResp]
      | none =>
        simp only [hkm]
        cases env.derivePublicKey (env.getSecretValue (privPath r))
            r.props.PublicKeyFormat <;>
          simp [addResp, emit, List.countP_append, List.countP_cons, hp]
  · simp [addResp]

/-- C9: an Update event whose only change is the value of one user tag (the
keys of the old and new tag maps agree, the maps differ) issues exactly one
tag-add and zero tag-remove calls against the compute resource, and exactly
one tag-add and zero tag-remove calls against each of the private-key
secret and the existing public-key secret. -/
theorem claim_C9_tag_value_update_calls (env : Env) (r : Resource) (kp : KeyPairInfo)
    (hname : r.props.Name = r.old.Name)
    (hstore : r.props.StorePublicKey = r.old.StorePublicKey)
    (hpubeq : r.props.PublicKey = r.old.PublicKey)
    (hkt : r.props.KeyType = oldKeyTypeEff r)
    (himp : r.props.PublicKey = "")
    (hstoreT : r.props.StorePublicKey = "true")
    (hdesc : env.describeResult = [kp])
    (hexists : env.secretExists (pubPath r) = true)
    (hkeys : r.props.Tags.map Prod.fst = r.old.Tags.map Prod.fst)
    (hne : r.props.Tags ≠ r.old.Tags) :
    (updateResource env r St.empty).2.calls.countP isCreateTags = 1 ∧
    (updateResource env r St.empty).2.calls.countP isDeleteTags = 0 ∧
    (updateResource env r St.empty).2.calls.countP (isTagResourceFor (privPath r)) = 1 ∧
    (updateResource env r St.empty).2.calls.countP (isTagResourceFor (pubPath r)) = 1 ∧
    (updateResource env r St.empty).2.calls.countP isUntagResource = 0 := by
  have hmiss : getMissingTags (makeTags r r.old.Tags) (makeTags r r.props.Tags) = [] :=
    getMissingTags_makeTags_nil r _ _ (fun k hk => hkeys ▸ hk)
  have hlen : r.props.PublicKey.length = 0 := by rw [himp]; rfl
  have hpb : (pubPath r == privPath r) = false :=
    beq_eq_false_iff_ne.mpr (Ne.symm (privPath_ne_pubPath r))
  have hpb2 : (privPath r == pubPath r) = false :=
    beq_eq_false_iff_ne.mpr (privPath_ne_pubPath r)
  have hmain : ∀ p : ApiCall → Bool, (∀ sid, p (ApiCall.getSecretValue sid) = false) →
      (updateResource env r St.empty).2.calls.countP p =
        [ApiCall.describeKeyPairs r.props.Name,
         ApiCall.createTags kp.KeyPairId (makeTags r r.props.Tags),
         ApiCall.updateSecret (privPath r) (r.props.Description ++ " (Private key)")
           r.props.KmsPrivate,
         ApiCall.tagResource (privPath r) (makeTags r r.props.Tags),
         ApiCall.listSecrets (pubPath r),
         ApiCall.updateSecret (pubPath r) (r.props.Description ++ " (Public Key)")
           r.props.KmsPublic,
         ApiCall.tagResource (pubPath r) (makeTags r r.props.Tags)].countP p := by
    intro p hp
    unfold updateResource
    rw [if_neg (fun hc => hc hname), if_neg (fun hc => hc hstore),
      if_neg (fun hc => hc hpubeq), if_neg (fun hc => hc hkt)]
    unfold updateKeyPair
    rw [hdesc]
    dsimp only
    rw [countP_exposePublicKey env r _ base64Encode _ p hp]
    simp [updateKeyPairAddTags, updateKeyPairRemoveTags, updateSecretAddTags,
      updateSecretRemoveTags, updatePrivateKeySecret, updatePublicKeySecret,
      hmiss, hexists, hlen, hstoreT, hne, emit, addResp, St.empty]
  refine ⟨?_, ?_, ?_, ?_, ?_⟩ <;>
    rw [hmain _ (fun _ => rfl)] <;>
    simp [List.countP_cons, isCreateTags, isDeleteTags, isTagResourceFor,
      isUntagResource, hpb, hpb2]

/-- A resource whose Update changes only the value of the user tag `env`. -/
def r9 : Resource :=
  { props := { props0 with StorePublicKey := "true", Tags := [("env", "prod")] }
    old := { props0 with StorePublicKey := "true", Tags := [("env", "dev")] }
    oldHasKeyType := true, StackId := "stack-id-1", LogicalResourceId := "logical-1" }

/-- An environment in which both secrets exist. -/
def env9 : Env := { env0 with secretExists := fun _ => true }

/-- Witness for C9: the tag-value-only update of `r9` issues exactly one
CreateTags call and no UntagResource call. -/
theorem claim_C9_witness :
    r9.props.Tags ≠ r9.old.Tags ∧
    (updateResource env9 r9 St.empty).2.calls.countP isCreateTags = 1 ∧
    (updateResource env9 r9 St.empty).2.calls.countP isUntagResource = 0 :=
  ⟨by decide,
    (claim_C9_tag_value_update_calls env9 r9 ⟨"a-key", "key-1", "fp-1"⟩
      rfl rfl rfl rfl rfl rfl rfl rfl (by decide) (by decide)).1,
    (claim_C9_tag_value_update_calls env9 r9 ⟨"a-key", "key-1", "fp-1"⟩
      rfl rfl rfl rfl rfl rfl rfl rfl (by decide) (by decide)).2.2.2.2⟩

end KeyPairSpec
